import Mathlib

/-!
Verification of the pySWATPlus `TxtinoutReader` core against its design spec.

Text files are modelled as lists of lines, each line a `List Char` (one line
per element of the Python `file.readlines()` / `for line in file` iteration,
newline characters kept inside the line, exactly as Python yields them).
The filesystem used by the cloning logic is modelled separately further below.

All definitions are shallow embeddings of the functions in
`pySWATPlus/TxtinoutReader.py`; each definition's doc comment names the
Python function it embeds.
-/

/-- A line of a text file, as a list of characters (newline kept). -/
abbrev Line := List Char

/-- Padding of `n` spaces, as used by Python `str.ljust` / `str.rjust`; padding used by Python `str.ljust` / `str.rjust`. -/
def spaces (n : Nat) : Line := List.replicate n ' '

/-- Python `s.ljust(w)`: left-justify in a field of width `w` (no-op when
`s` is already at least `w` characters long, because `w - s.length = 0`). -/
def ljust (s : Line) (w : Nat) : Line := s ++ spaces (w - s.length)

/-- Python `'{: >w}'.format(x)` / `s.rjust(w)`: right-justify in width `w`. -/
def rjust (s : Line) (w : Nat) : Line := spaces (w - s.length) ++ s

/-- ASCII whitespace, the characters stripped by Python `str.rstrip()` and
used as separators by `str.split()` (the files involved are ASCII). -/
def isPySpace (c : Char) : Bool :=
  c = ' ' || c = '\t' || c = '\n' || c = '\x0b' || c = '\x0c' || c = '\r'

/-- Python `s.rstrip()`: drop trailing whitespace. -/
def rstrip (s : Line) : Line := (s.reverse.dropWhile isPySpace).reverse

/-- Python `s.split()`: split on whitespace runs, dropping empty pieces. -/
def pySplit (s : Line) : List Line :=
  (List.splitOnP isPySpace s).filter (fun piece => piece ≠ [])

/-- Python `s.rsplit(sep, maxsplit=1)[0]`: the part of `s` before the last
occurrence of `sep`, or all of `s` when `sep` does not occur. -/
def rsplitBeforeLast (sep : Char) (s : Line) : Line :=
  if s.contains sep then ((s.reverse.dropWhile (fun c => c ≠ sep)).drop 1).reverse
  else s

/-- Python `os.path.splitext(obj)[1] != ''` for a separator-free name:
the extension is nonempty iff a dot occurs after the leading run of dots. -/
def splitextHasExt (obj : Line) : Bool :=
  (obj.dropWhile (fun c => c = '.')).contains '.'

/-- Embeds `TxtinoutReader._build_line_to_add`: the object name left-justified in a
29-character field, then for each of daily/monthly/yearly/avann (in the
insertion order of the `print_periodicity` dict) a `'y'`/`'n'` left-justified
in a 14-character field; trailing whitespace stripped and `'\n'` appended. -/
def build_line_to_add (obj : Line) (daily monthly yearly avann : Bool) : Line :=
  let flag := fun (b : Bool) => ljust [if b then 'y' else 'n'] 14
  rstrip (ljust obj 29 ++ flag daily ++ flag monthly ++ flag yearly ++ flag avann) ++ ['\n']

/-- The per-line match test of `enable_object_in_print_prt`:
`line.startswith(arg_to_add + ' ')`. -/
def matchesObj (arg line : Line) : Bool := List.isPrefixOf (arg ++ [' ']) line

/-- One iteration of the `for line in file` loop of
`enable_object_in_print_prt`: a non-matching line is copied verbatim into the
output, a matching line is replaced by the freshly built line. -/
def enableStep (arg : Line) (daily monthly yearly avann : Bool) (line : Line) : Line :=
  if matchesObj arg line then build_line_to_add arg daily monthly yearly avann else line

/-- Embeds `TxtinoutReader.enable_object_in_print_prt`, acting on the list of lines
of `print.prt`.  The Python function accumulates the output chunks into one
string and rewrites the file with it; here the output is the list of those
chunks, one per input line (plus the appended line when no line matched), and
the written file content is their concatenation.  The `found` flag is true
iff some line matched, exactly as in the loop. -/
def enable_object_in_print_prt (obj : Line) (daily monthly yearly avann : Bool)
    (lines : List Line) : List Line :=
  let arg := if splitextHasExt obj then rsplitBeforeLast '_' obj else obj
  let newLines := lines.map (enableStep arg daily monthly yearly avann)
  if lines.any (matchesObj arg) then newLines
  else newLines ++ [build_line_to_add arg daily monthly yearly avann]

theorem map_eq_self_of_eq {α : Type} (f : α → α) (l : List α) (h : ∀ x ∈ l, f x = x) :
    l.map f = l := by
  induction l with
  | nil => rfl
  | cons a t ih =>
      simp only [List.map_cons]
      rw [h a (List.mem_cons_self a t), ih (fun x hx => h x (List.mem_cons_of_mem a hx))]

/-- C3: for an object name `o` (a plain name, no extension) with no matching
line in the file, `enable_object_in_print_prt` appends exactly the fixed-format
line built by `_build_line_to_add` at the end and leaves every other line
byte-identical. -/
theorem enable_object_appends_when_absent (o : Line) (daily monthly yearly avann : Bool)
    (lines : List Line)
    (hext : splitextHasExt o = false)
    (habs : ∀ line ∈ lines, matchesObj o line = false) :
    enable_object_in_print_prt o daily monthly yearly avann lines
      = lines ++ [build_line_to_add o daily monthly yearly avann] := by
  unfold enable_object_in_print_prt
  rw [hext]
  simp only [Bool.false_eq_true, if_false]
  have hany : lines.any (matchesObj o) = false :=
    List.any_eq_false.mpr (fun x hx => by rw [habs x hx]; exact Bool.false_ne_true)
  rw [hany]
  simp only [Bool.false_eq_true, if_false]
  rw [map_eq_self_of_eq _ lines
    (fun line hl => by unfold enableStep; rw [habs line hl]; simp)]

/-- Witness for `enable_object_appends_when_absent` on a concrete file. -/
theorem enable_object_appends_when_absent_witness :
    enable_object_in_print_prt ("basin_wb".toList) true false false false
        ["time x\n".toList, "header\n".toList]
      = ["time x\n".toList, "header\n".toList]
          ++ [build_line_to_add ("basin_wb".toList) true false false false] :=
  enable_object_appends_when_absent ("basin_wb".toList) true false false false
    ["time x\n".toList, "header\n".toList] (by decide)
    (by intro line hl; fin_cases hl <;> decide)

/-- C4: when exactly one line matches the object name (the file invariant:
at most one line per object name, and `o` is present), the matching line is
replaced in place at the same index, the line count is unchanged, and every
other line is byte-identical. -/
theorem enable_object_replaces_in_place (o : Line) (daily monthly yearly avann : Bool)
    (pre post : List Line) (tgt : Line)
    (hext : splitextHasExt o = false)
    (hpre : ∀ line ∈ pre, matchesObj o line = false)
    (hpost : ∀ line ∈ post, matchesObj o line = false)
    (htgt : matchesObj o tgt = true) :
    enable_object_in_print_prt o daily monthly yearly avann (pre ++ tgt :: post)
        = pre ++ build_line_to_add o daily monthly yearly avann :: post
    ∧ (enable_object_in_print_prt o daily monthly yearly avann (pre ++ tgt :: post)).length
        = (pre ++ tgt :: post).length := by
  have hmain :
      enable_object_in_print_prt o daily monthly yearly avann (pre ++ tgt :: post)
        = pre ++ build_line_to_add o daily monthly yearly avann :: post := by
    unfold enable_object_in_print_prt
    rw [hext]
    simp only [Bool.false_eq_true, if_false]
    have hany : (pre ++ tgt :: post).any (matchesObj o) = true := by
      simp only [List.any_append, List.any_cons, htgt, Bool.true_or, Bool.or_true]
    rw [hany]
    simp only [if_true, List.map_append, List.map_cons]
    rw [map_eq_self_of_eq _ pre
      (fun line hl => by unfold enableStep; rw [hpre line hl]; simp)]
    rw [map_eq_self_of_eq _ post
      (fun line hl => by unfold enableStep; rw [hpost line hl]; simp)]
    unfold enableStep
    rw [htgt]
    simp
  exact ⟨hmain, by rw [hmain]; simp⟩

/-- Witness for `enable_object_replaces_in_place` on a concrete file. -/
theorem enable_object_replaces_in_place_witness :
    enable_object_in_print_prt ("basin".toList) false true false false
        (["header\n".toList] ++ "basin  y  n  n  n\n".toList :: ["other x\n".toList])
        = ["header\n".toList]
            ++ build_line_to_add ("basin".toList) false true false false :: ["other x\n".toList]
    ∧ (enable_object_in_print_prt ("basin".toList) false true false false
        (["header\n".toList] ++ "basin  y  n  n  n\n".toList :: ["other x\n".toList])).length
        = (["header\n".toList] ++ "basin  y  n  n  n\n".toList :: ["other x\n".toList]).length :=
  enable_object_replaces_in_place ("basin".toList) false true false false
    ["header\n".toList] ["other x\n".toList] ("basin  y  n  n  n\n".toList)
    (by decide)
    (by intro line hl; fin_cases hl <;> decide)
    (by intro line hl; fin_cases hl <;> decide)
    (by decide)

theorem matchesObj_basin_of_basin_sub (line : Line)
    (h : List.isPrefixOf ("basin_sub".toList) line = true) :
    matchesObj ("basin".toList) line = false := by
  obtain ⟨t, rfl⟩ := List.isPrefixOf_iff_prefix.mp h
  rfl

/-- C5: prefix boundary — running `enable_object_in_print_prt` for object
`basin` never matches a `basin_sub` line, and leaves it unchanged at its
original index in the output. -/
theorem enable_object_prefix_boundary (daily monthly yearly avann : Bool)
    (lines : List Line) (i : Nat) (hi : i < lines.length)
    (hsub : List.isPrefixOf ("basin_sub".toList) (lines.get ⟨i, hi⟩) = true) :
    (enable_object_in_print_prt ("basin".toList) daily monthly yearly avann lines)[i]?
        = some (lines.get ⟨i, hi⟩)
    ∧ matchesObj ("basin".toList) (lines.get ⟨i, hi⟩) = false := by
  have hno : matchesObj ("basin".toList) (lines.get ⟨i, hi⟩) = false :=
    matchesObj_basin_of_basin_sub _ hsub
  have harg : (if splitextHasExt ("basin".toList) then rsplitBeforeLast '_' ("basin".toList)
      else "basin".toList) = "basin".toList := by decide
  have hmap : ∀ (ls : List Line),
      (ls.map (enableStep ("basin".toList) daily monthly yearly avann))[i]?
        = (ls[i]?).map (enableStep ("basin".toList) daily monthly yearly avann) := by
    intro ls; simp [List.getElem?_map]
  have hstep : enableStep ("basin".toList) daily monthly yearly avann (lines.get ⟨i, hi⟩)
      = lines.get ⟨i, hi⟩ := by
    unfold enableStep; rw [hno]; simp
  have hget : lines[i]? = some (lines.get ⟨i, hi⟩) := by
    rw [List.getElem?_eq_getElem hi]; rfl
  constructor
  · simp only [enable_object_in_print_prt]
    rw [harg]
    by_cases hany : lines.any (matchesObj ("basin".toList)) = true
    · rw [hany]
      simp only [if_true]
      rw [hmap, hget]
      simpa using hstep
    · rw [Bool.not_eq_true] at hany
      rw [hany]
      simp only [Bool.false_eq_true, if_false]
      rw [List.getElem?_append_left (by simpa using hi), hmap, hget]
      simpa using hstep
  · exact hno

/-- Witness for `enable_object_prefix_boundary` on a concrete file. -/
theorem enable_object_prefix_boundary_witness :
    (enable_object_in_print_prt ("basin".toList) true true true true
        ["basin_sub       y  n  n  n\n".toList, "basin  n  n  n  n\n".toList])[0]?
        = some (["basin_sub       y  n  n  n\n".toList,
            "basin  n  n  n  n\n".toList].get ⟨0, by decide⟩)
    ∧ matchesObj ("basin".toList)
        (["basin_sub       y  n  n  n\n".toList,
            "basin  n  n  n  n\n".toList].get ⟨0, by decide⟩) = false :=
  enable_object_prefix_boundary true true true true
    ["basin_sub       y  n  n  n\n".toList, "basin  n  n  n  n\n".toList]
    0 (by decide) (by decide)

/-- Embeds `TxtinoutReader._enable_disable_csv_print`: reads the lines of
`print.prt`, replaces line 7 (index 6) by `'y'`/`'n'` followed by everything
after that line's first character (`lines[6] = c + lines[6][1:]`), and
rewrites the file.  Python raises `IndexError` when the file has fewer than
7 lines; that failure is `none` here. -/
def enable_disable_csv_print (enable : Bool) (lines : List Line) : Option (List Line) :=
  match lines[6]? with
  | none => none
  | some l7 => some (lines.set 6 ((if enable then 'y' else 'n') :: l7.drop 1))

/-- Embeds `TxtinoutReader.enable_csv_print`. -/
def enable_csv_print (lines : List Line) : Option (List Line) :=
  enable_disable_csv_print true lines

/-- Embeds `TxtinoutReader.disable_csv_print`. -/
def disable_csv_print (lines : List Line) : Option (List Line) :=
  enable_disable_csv_print false lines

theorem getElem?_set_cases {α : Type} (l : List α) (i j : Nat) (a : α) :
    (l.set i a)[j]? = if i = j ∧ i < l.length then some a else l[j]? := by
  by_cases h : i = j ∧ i < l.length
  · rw [if_pos h, ← h.1, List.getElem?_set_self]
    omega
  · rw [if_neg h]
    by_cases hij : i = j
    · subst hij
      have hlen : ¬ i < l.length := fun hc => h ⟨rfl, hc⟩
      rw [List.getElem?_eq_none (by rw [List.length_set]; omega),
        List.getElem?_eq_none (by omega)]
    · exact List.getElem?_set_ne hij

theorem set_of_getElem?_eq {α : Type} (l : List α) (i : Nat) (a : α)
    (h : l[i]? = some a) : l.set i a = l := by
  have hi : i < l.length := by
    by_contra hc
    rw [List.getElem?_eq_none (by omega)] at h
    exact Option.noConfusion h
  apply List.ext_getElem?
  intro j
  rw [getElem?_set_cases]
  by_cases hij : i = j ∧ i < l.length
  · rw [if_pos hij, ← hij.1, h]
  · rw [if_neg hij]

/-- C7 counterexample: on a file whose line 7 already starts with `'y'`,
`enable_csv_print` followed by `disable_csv_print` does NOT restore line 7:
the round trip forces the first character to `'n'`. -/
theorem csv_roundtrip_counterexample :
    (enable_csv_print ["a\n".toList, "b\n".toList, "c\n".toList, "d\n".toList,
        "e\n".toList, "f\n".toList, "y csv\n".toList]).bind disable_csv_print
      ≠ some ["a\n".toList, "b\n".toList, "c\n".toList, "d\n".toList,
        "e\n".toList, "f\n".toList, "y csv\n".toList] := by
  decide

/-- C7 (amended): when the original line 7 starts with `'n'` (CSV printing
initially disabled), `enable_csv_print` then `disable_csv_print` restores the
whole file exactly; and each toggle rewrites only the first character of
line 7, leaving the rest of that line and every other line untouched. -/
theorem csv_toggle_roundtrip (lines : List Line) (rest : Line)
    (h7 : lines[6]? = some ('n' :: rest)) :
    (enable_csv_print lines).bind disable_csv_print = some lines
    ∧ (∀ b out, enable_disable_csv_print b lines = some out →
        (∀ i, i ≠ 6 → out[i]? = lines[i]?)
        ∧ out[6]? = some ((if b then 'y' else 'n') :: rest)) := by
  have hlen : 6 < lines.length := by
    by_contra hc
    rw [List.getElem?_eq_none (by omega)] at h7
    exact Option.noConfusion h7
  constructor
  · show (enable_disable_csv_print true lines).bind (enable_disable_csv_print false) = some lines
    unfold enable_disable_csv_print
    rw [h7]
    simp only [List.drop_succ_cons, List.drop_zero, Option.bind_some, Option.some_bind]
    rw [getElem?_set_cases]
    rw [if_pos ⟨rfl, hlen⟩]
    simp only [List.drop_succ_cons, List.drop_zero]
    simp only [Bool.false_eq_true, if_false]
    rw [List.set_set, set_of_getElem?_eq lines 6 _ h7]
  · intro b out hout
    unfold enable_disable_csv_print at hout
    rw [h7] at hout
    simp only [List.drop_succ_cons, List.drop_zero, Option.some.injEq] at hout
    subst hout
    constructor
    · intro i hi
      rw [getElem?_set_cases, if_neg (fun hc => hi hc.1.symm)]
    · rw [getElem?_set_cases, if_pos ⟨rfl, hlen⟩]

/-- Witness for `csv_toggle_roundtrip` on a concrete file. -/
theorem csv_toggle_roundtrip_witness :
    (enable_csv_print ["a\n".toList, "b\n".toList, "c\n".toList, "d\n".toList,
        "e\n".toList, "f\n".toList, "n csv\n".toList]).bind disable_csv_print
      = some ["a\n".toList, "b\n".toList, "c\n".toList, "d\n".toList,
        "e\n".toList, "f\n".toList, "n csv\n".toList]
    ∧ (∀ b out, enable_disable_csv_print b ["a\n".toList, "b\n".toList, "c\n".toList,
          "d\n".toList, "e\n".toList, "f\n".toList, "n csv\n".toList] = some out →
        (∀ i, i ≠ 6 → out[i]? = (["a\n".toList, "b\n".toList, "c\n".toList, "d\n".toList,
          "e\n".toList, "f\n".toList, "n csv\n".toList] : List Line)[i]?)
        ∧ out[6]? = some ((if b then 'y' else 'n') :: " csv\n".toList)) :=
  csv_toggle_roundtrip ["a\n".toList, "b\n".toList, "c\n".toList, "d\n".toList,
    "e\n".toList, "f\n".toList, "n csv\n".toList] (" csv\n".toList) (by decide)

/-- Numeric value of an ASCII digit, `none` for any other character. -/
def digitVal (c : Char) : Option Nat :=
  if '0' ≤ c && c ≤ '9' then some (c.toNat - 48) else none

/-- Parse a nonempty all-digit string as a natural number (the way
`strptime` reads the `%Y`, `%m`, `%d` fields). -/
def parseNatL (s : Line) : Option Nat :=
  match s with
  | [] => none
  | _ =>
      s.foldl (fun acc c => acc.bind (fun n => (digitVal c).map (fun d => n * 10 + d)))
        (some 0)

/-- Gregorian leap-year rule, as used by Python `datetime`. -/
def isLeap (y : Nat) : Bool :=
  y % 4 == 0 && (y % 100 != 0 || y % 400 == 0)

/-- Number of days in month `m` of year `y`. -/
def daysInMonth (y m : Nat) : Nat :=
  if m == 2 then (if isLeap y then 29 else 28)
  else if m == 4 || m == 6 || m == 9 || m == 11 then 30
  else 31

/-- Embeds `datetime.strptime(s, "%Y-%m-%d").timetuple().tm_yday`: the 1-based day
of the year of the date `(y, m, d)`. -/
def dayOfYear (y m d : Nat) : Nat :=
  (List.range (m - 1)).foldl (fun acc i => acc + daysInMonth y (i + 1)) 0 + d

/-- Embeds `datetime.strptime(s, "%Y-%m-%d")`: split on `'-'`, require three numeric
fields forming a valid calendar date, and return `(year, month, day)`. -/
def parseDate (s : Line) : Option (Nat × Nat × Nat) :=
  match List.splitOnP (fun c => c == '-') s with
  | [ys, ms, ds] =>
      (parseNatL ys).bind fun y =>
      (parseNatL ms).bind fun m =>
      (parseNatL ds).bind fun d =>
      if 1 ≤ m && m ≤ 12 && 1 ≤ d && d ≤ daysInMonth y m then some (y, m, d) else none
  | _ => none

/-- Decimal digits, structurally recursive on a fuel argument so that the
kernel can evaluate it (the fuel `n + 1` always suffices: a number has at
most `n + 1` decimal digits). -/
def natCharsAux : Nat → Nat → Line
  | 0, _ => []
  | fuel + 1, n =>
      if n < 10 then [Char.ofNat (48 + n)]
      else natCharsAux fuel (n / 10) ++ [Char.ofNat (48 + n % 10)]

/-- Decimal digits of a natural number, as Python `str(n)` prints them. -/
def natChars (n : Nat) : Line := natCharsAux (n + 1) n

/-- Python `str(i)` for an integer. -/
def intChars (i : Int) : Line :=
  if i < 0 then '-' :: natChars i.natAbs else natChars i.toNat

/-- Embeds `TxtinoutReader.set_simulation_time`: parse the two ISO dates, read
`time.sim`, split line 3 (index 2) on whitespace, overwrite its first five
fields with day/year of the start date, day/year of the end date and the
step, and rebuild the line with the Python format string
`'{: >8} {: >10} {: >10} {: >10} {: >10} \n'` (the rebuilt line depends only
on the five new values; the remaining split fields are not used by the
format).  Python raises when a date fails to parse, when the file has fewer
than 3 lines, or when line 3 has fewer than 5 fields; those failures are
`none` here. -/
def set_simulation_time (lines : List Line) (start_date end_date : Line) (step : Int) :
    Option (List Line) :=
  match parseDate start_date, parseDate end_date with
  | some s, some e =>
      match lines[2]? with
      | some year_line =>
          if 5 ≤ (pySplit year_line).length then
            let day_start := dayOfYear s.1 s.2.1 s.2.2
            let year_start := s.1
            let day_end := dayOfYear e.1 e.2.1 e.2.2
            let year_end := e.1
            let result := rjust (natChars day_start) 8 ++ [' ']
              ++ rjust (natChars year_start) 10 ++ [' ']
              ++ rjust (natChars day_end) 10 ++ [' ']
              ++ rjust (natChars year_end) 10 ++ [' ']
              ++ rjust (intChars step) 10 ++ [' ', '\n']
            some (lines.set 2 result)
          else none
      | none => none
  | _, _ => none

/-- C6: with start `2010-01-01`, end `2010-12-31` and step `0`,
`set_simulation_time` rewrites line 3 to exactly
`"       1       2010        365       2010          0 \n"` (five
right-justified fields of widths 8, 10, 10, 10, 10, each followed by one
space, newline-terminated) and leaves all other lines unchanged. -/
theorem set_simulation_time_example (lines : List Line) (year_line : Line)
    (h3 : lines[2]? = some year_line)
    (h5 : 5 ≤ (pySplit year_line).length) :
    set_simulation_time lines ("2010-01-01".toList) ("2010-12-31".toList) 0
      = some (lines.set 2
          ("       1       2010        365       2010          0 \n".toList)) := by
  have hp1 : parseDate ("2010-01-01".toList) = some (2010, 1, 1) := by decide
  have hp2 : parseDate ("2010-12-31".toList) = some (2010, 12, 31) := by decide
  unfold set_simulation_time
  rw [hp1, hp2, h3]
  simp only
  rw [if_pos h5]
  congr 1

/-- Witness for `set_simulation_time_example` on a concrete file. -/
theorem set_simulation_time_example_witness :
    set_simulation_time ["time.sim header\n".toList, "titles\n".toList,
        "1 2000 365 2005 0\n".toList]
        ("2010-01-01".toList) ("2010-12-31".toList) 0
      = some (["time.sim header\n".toList, "titles\n".toList,
          "1 2000 365 2005 0\n".toList].set 2
          ("       1       2010        365       2010          0 \n".toList)) :=
  set_simulation_time_example
    ["time.sim header\n".toList, "titles\n".toList, "1 2000 365 2005 0\n".toList]
    ("1 2000 365 2005 0\n".toList) (by decide) (by decide)

/-- Embeds `re.sub(pat, rep, text)` for the literal (metacharacter-free) patterns
`'#' + key + '#'` that `change_params` builds: scan left to right, replace
each leftmost non-overlapping occurrence of `pat`, resume after it.  (An
empty pattern never arises: the built pattern always contains `'#'`.) -/
def replaceAll (pat rep : Line) (text : Line) : Line :=
  match text with
  | [] => []
  | c :: rest =>
      if List.isPrefixOf pat (c :: rest) && !pat.isEmpty then
        rep ++ replaceAll pat rep (rest.drop (pat.length - 1))
      else c :: replaceAll pat rep rest
termination_by text.length
decreasing_by
  · simp only [List.length_cons, List.length_drop]
    omega
  · simp only [List.length_cons]
    omega

/-- Embeds `TxtinoutReader.change_params`, text part: the file content (the join of
its lines) with, for each `(key, value)` pair in mapping iteration order,
every occurrence of `'#' + key + '#'` replaced by the stringified value
(values appear here already stringified, e.g. Python `str(0.555)` is
`"0.555"`). -/
def change_params_text (params : List (Line × Line)) (text : Line) : Line :=
  params.foldl (fun acc kv => replaceAll ('#' :: (kv.1 ++ ['#'])) kv.2 acc) text

/-- Embeds `TxtinoutReader.change_params`, output-name part:
`tpl_filename.rsplit(".", 1)[0]`, the template name with its final
extension-suffix segment removed. -/
def change_params_filename (tpl_filename : Line) : Line :=
  rsplitBeforeLast '.' tpl_filename

/-- Text assembled from `chunks` with `sep` between consecutive chunks:
the canonical decomposition of a text around the occurrences of `sep`. -/
def joinSep (sep : Line) : List Line → Line
  | [] => []
  | [chunk] => chunk
  | chunk :: chunks => chunk ++ sep ++ joinSep sep chunks

theorem replaceAll_nil (pat rep : Line) : replaceAll pat rep [] = [] := by
  rw [replaceAll]

theorem replaceAll_skip (p' rep : Line) (seg : Line) (hseg : '#' ∉ seg) (t : Line) :
    replaceAll ('#' :: p') rep (seg ++ t) = seg ++ replaceAll ('#' :: p') rep t := by
  induction seg with
  | nil => rfl
  | cons c cs ih =>
      have hc : ('#' == c) = false :=
        beq_eq_false_iff_ne.mpr (fun hcc => hseg (hcc ▸ List.mem_cons_self c cs))
      have hcs : '#' ∉ cs := fun hm => hseg (List.mem_cons_of_mem c hm)
      rw [List.cons_append]
      rw [replaceAll]
      simp only [List.isPrefixOf, hc, Bool.false_and, Bool.and_false,
        Bool.false_eq_true, if_false]
      rw [ih hcs]
      rfl

theorem replaceAll_head (q : Char) (qs rep : Line) (t : Line) :
    replaceAll (q :: qs) rep ((q :: qs) ++ t) = rep ++ replaceAll (q :: qs) rep t := by
  rw [List.cons_append, replaceAll]
  have h1 : (q == q) = true := beq_self_eq_true q
  have h2 : List.isPrefixOf qs (qs ++ t) = true :=
    List.isPrefixOf_iff_prefix.mpr (List.prefix_append _ _)
  simp only [List.isPrefixOf, h1, h2, Bool.and_self, List.isEmpty_cons, Bool.not_false,
    Bool.and_true, Bool.true_and, if_true, List.length_cons, Nat.add_sub_cancel,
    List.drop_left]

/-- C8: `change_params` with the single-token mapping `{key: value}` on a
text decomposed as `#`-free chunks separated by occurrences of `#key#`
replaces every occurrence of `#key#` by the value and leaves every chunk
byte-identical (in particular for `{"awc": 0.555}`, every `#awc#` becomes
`0.555` and nothing else changes); and the output file for template
`soils.sol.tpl` is its sibling `soils.sol` (final suffix segment removed). -/
theorem change_params_replaces_tokens (k v : Line) (chunks : List Line)
    (hch : ∀ chunk ∈ chunks, '#' ∉ chunk) :
    change_params_text [(k, v)] (joinSep ('#' :: (k ++ ['#'])) chunks)
        = joinSep v chunks
    ∧ change_params_filename ("soils.sol.tpl".toList) = "soils.sol".toList := by
  constructor
  · show replaceAll ('#' :: (k ++ ['#'])) v (joinSep ('#' :: (k ++ ['#'])) chunks)
        = joinSep v chunks
    induction chunks with
    | nil => exact replaceAll_nil _ _
    | cons c cs ih =>
        have hc : '#' ∉ c := hch c (List.mem_cons_self c cs)
        have hcs : ∀ chunk ∈ cs, '#' ∉ chunk :=
          fun chunk hm => hch chunk (List.mem_cons_of_mem c hm)
        match cs with
        | [] =>
            show replaceAll ('#' :: (k ++ ['#'])) v c = c
            have := replaceAll_skip (k ++ ['#']) v c hc []
            rw [List.append_nil] at this
            rw [this, replaceAll_nil, List.append_nil]
        | c2 :: cs2 =>
            show replaceAll ('#' :: (k ++ ['#'])) v
                (c ++ ('#' :: (k ++ ['#'])) ++ joinSep ('#' :: (k ++ ['#'])) (c2 :: cs2))
              = c ++ v ++ joinSep v (c2 :: cs2)
            rw [List.append_assoc]
            rw [replaceAll_skip (k ++ ['#']) v c hc]
            rw [replaceAll_head '#' (k ++ ['#']) v]
            rw [ih hcs]
            rw [List.append_assoc]
  · decide

/-- Witness for `change_params_replaces_tokens` on a concrete template. -/
theorem change_params_replaces_tokens_witness :
    change_params_text [("awc".toList, "0.555".toList)]
        (joinSep ('#' :: ("awc".toList ++ ['#']))
          ["soil awc = ".toList, " and ".toList, " end\n".toList])
        = joinSep ("0.555".toList) ["soil awc = ".toList, " and ".toList, " end\n".toList]
    ∧ change_params_filename ("soils.sol.tpl".toList) = "soils.sol".toList :=
  change_params_replaces_tokens ("awc".toList) ("0.555".toList)
    ["soil awc = ".toList, " and ".toList, " end\n".toList]
    (by intro chunk hm; fin_cases hm <;> decide)

/-- A distributed executor (`dask.distributed.Client`), an external
collaborator whose code is not part of this repository.  Modelled from the
spec: the executor contract is `map(fn, taskList) -> FutureList` and
`gather(FutureList) -> OrderedResultList`; `exec` is the executor's
application of the submitted function to one task on some worker. -/
structure Client (T R : Type) where
  exec : T → R

/-- Modelled from the spec: `client.gather(client.map(fn, tasks))` returns
one result per task in submission order, regardless of completion order. -/
def clientMapGather {T R : Type} (c : Client T R) (tasks : List T) : List R :=
  tasks.map c.exec

set_option linter.unusedVariables false in
/-- Embeds `TxtinoutReader.run_parallel_swat`.  The per-run operation
`self.copy_and_run` (clone the workspace into a fresh directory, apply one
parameter set, invoke the executable) is abstracted as a state-threading
function `copy_and_run : S → Option D → Bool → P → Bool → S × R`: current
world state, target directory `dir`, `overwrite` flag, one parameter set,
`show_output` flag, returning the new world state and the resulting
workspace path.  `max_treads` abstracts `multiprocessing.cpu_count()` (the
source's spelling).  As in the source, `threads` is computed and then used
by neither branch.  The local branch (`client is None`) appends
`copy_and_run(dir=dir, overwrite=False, params=params[i],
show_output=False)` to `results_ret` for `i = 0 .. len(params)-1` in order;
the distributed branch builds the task tuples `[dir, False, params[i],
False]` and gathers their mapped results (the source's duplicated
`items = ...` line recomputes the same list and is modelled once). -/
def run_parallel_swat {S P R D : Type}
    (copy_and_run : S → Option D → Bool → P → Bool → S × R)
    (max_treads : Nat) (params : List P) (n_workers : Nat) (dir : Option D)
    (client : Option (Client (Option D × Bool × P × Bool) R)) (s : S) :
    S × List R :=
  let threads := max (min n_workers max_treads) 1
  match client with
  | none =>
      params.foldl
        (fun acc p =>
          let sr := copy_and_run acc.1 dir false p false
          (sr.1, acc.2 ++ [sr.2]))
        (s, [])
  | some c =>
      let items := params.map (fun p => (dir, false, p, false))
      (s, clientMapGather c items)

/-- Strictly sequential reference semantics for the local branch: execute
the parameter sets one at a time in input order, collecting results in that
order. -/
def runSeq {S P R D : Type} (copy_and_run : S → Option D → Bool → P → Bool → S × R)
    (dir : Option D) (s : S) : List P → S × List R
  | [] => (s, [])
  | p :: ps =>
      let sr := copy_and_run s dir false p false
      let rest := runSeq copy_and_run dir sr.1 ps
      (rest.1, sr.2 :: rest.2)

/-- World state after sequentially executing the given parameter sets. -/
def stateAfter {S P R D : Type} (copy_and_run : S → Option D → Bool → P → Bool → S × R)
    (dir : Option D) (s : S) (ps : List P) : S :=
  ps.foldl (fun st p => (copy_and_run st dir false p false).1) s

theorem run_parallel_local_eq {S P R D : Type}
    (f : S → Option D → Bool → P → Bool → S × R) (dir : Option D) (ps : List P) :
    ∀ (s : S) (acc : List R),
      ps.foldl
          (fun acc p =>
            let sr := f acc.1 dir false p false
            (sr.1, acc.2 ++ [sr.2]))
          (s, acc)
        = ((runSeq f dir s ps).1, acc ++ (runSeq f dir s ps).2) := by
  induction ps with
  | nil => intro s acc; simp [runSeq]
  | cons q qs ih =>
      intro s acc
      rw [List.foldl_cons]
      rw [ih]
      simp [runSeq]

theorem runSeq_length {S P R D : Type}
    (f : S → Option D → Bool → P → Bool → S × R) (dir : Option D) :
    ∀ (ps : List P) (s : S), (runSeq f dir s ps).2.length = ps.length := by
  intro ps
  induction ps with
  | nil => intro s; rfl
  | cons q qs ih => intro s; simp only [runSeq, List.length_cons, ih]

theorem runSeq_getElem? {S P R D : Type}
    (f : S → Option D → Bool → P → Bool → S × R) (dir : Option D) :
    ∀ (ps : List P) (s : S) (i : Nat) (p : P), ps[i]? = some p →
      (runSeq f dir s ps).2[i]?
        = some ((f (stateAfter f dir s (ps.take i)) dir false p false).2) := by
  intro ps
  induction ps with
  | nil => intro s i p hp; simp at hp
  | cons q qs ih =>
      intro s i p hp
      match i with
      | 0 =>
          simp only [List.getElem?_cons_zero, Option.some.injEq] at hp
          subst hp
          simp only [runSeq, stateAfter, List.take_zero, List.foldl_nil,
            List.getElem?_cons_zero]
      | Nat.succ j =>
          simp only [List.getElem?_cons_succ] at hp
          show (runSeq f dir s (q :: qs)).2[j + 1]? = _
          simp only [runSeq, List.getElem?_cons_succ]
          rw [ih _ j p hp]
          rfl

/-- C1: `run_parallel_swat` returns exactly one workspace path per input
parameter set, in input order, on both backends: with `client=None` the
i-th returned element is the result of running the i-th parameter set (with
`overwrite=False`, `show_output=False`) after the first `i` runs, and with a
client the i-th element is the executor's result for the i-th task tuple
`(dir, False, params[i], False)`, independent of completion order by the
executor's ordered-gather contract. -/
theorem run_parallel_swat_ordered {S P R D : Type}
    (copy_and_run : S → Option D → Bool → P → Bool → S × R)
    (max_treads n_workers : Nat) (params : List P) (dir : Option D) (s : S)
    (c : Client (Option D × Bool × P × Bool) R) :
    (run_parallel_swat copy_and_run max_treads params n_workers dir none s).2.length
        = params.length
    ∧ (∀ (i : Nat) (p : P), params[i]? = some p →
        (run_parallel_swat copy_and_run max_treads params n_workers dir none s).2[i]?
          = some ((copy_and_run (stateAfter copy_and_run dir s (params.take i))
              dir false p false).2))
    ∧ (run_parallel_swat copy_and_run max_treads params n_workers dir (some c) s).2.length
        = params.length
    ∧ (∀ (i : Nat) (p : P), params[i]? = some p →
        (run_parallel_swat copy_and_run max_treads params n_workers dir (some c) s).2[i]?
          = some (c.exec (dir, false, p, false))) := by
  have hloc : run_parallel_swat copy_and_run max_treads params n_workers dir none s
      = ((runSeq copy_and_run dir s params).1, (runSeq copy_and_run dir s params).2) := by
    show params.foldl _ (s, []) = _
    rw [run_parallel_local_eq]
    rw [List.nil_append]
  refine ⟨?_, ?_, ?_, ?_⟩
  · rw [hloc]
    exact runSeq_length copy_and_run dir params s
  · intro i p hp
    rw [hloc]
    exact runSeq_getElem? copy_and_run dir params s i p hp
  · have hcl : run_parallel_swat copy_and_run max_treads params n_workers dir (some c) s
        = (s, clientMapGather c (params.map (fun p => (dir, false, p, false)))) := rfl
    rw [hcl]
    unfold clientMapGather
    rw [List.length_map, List.length_map]
  · intro i p hp
    have hcl : run_parallel_swat copy_and_run max_treads params n_workers dir (some c) s
        = (s, clientMapGather c (params.map (fun p => (dir, false, p, false)))) := rfl
    rw [hcl]
    unfold clientMapGather
    rw [List.getElem?_map, List.getElem?_map, hp]
    rfl

/-- Witness for `run_parallel_swat_ordered` at concrete inputs: three
parameter sets run locally give the 2nd result produced by the 2nd set after
one prior run, and with a client the 3rd result is the executor's output for
the 3rd task. -/
theorem run_parallel_swat_ordered_witness :
    (run_parallel_swat
        (fun (s : Nat) (_ : Option Nat) (_ : Bool) (p : Nat) (_ : Bool) => (s + 1, 100 * s + p))
        8 [5, 6, 7] 3 none none 0).2[1]? = some 106
    ∧ (run_parallel_swat
        (fun (s : Nat) (_ : Option Nat) (_ : Bool) (p : Nat) (_ : Bool) => (s + 1, 100 * s + p))
        8 [5, 6, 7] 3 none (some ⟨fun t => t.2.2.1 + 1000⟩) 0).2[2]? = some 1007 :=
  ⟨((run_parallel_swat_ordered
      (fun (s : Nat) (_ : Option Nat) (_ : Bool) (p : Nat) (_ : Bool) => (s + 1, 100 * s + p))
      8 3 [5, 6, 7] none 0 ⟨fun t => t.2.2.1 + 1000⟩).2.1 1 6 (by decide)),
   ((run_parallel_swat_ordered
      (fun (s : Nat) (_ : Option Nat) (_ : Bool) (p : Nat) (_ : Bool) => (s + 1, 100 * s + p))
      8 3 [5, 6, 7] none 0 ⟨fun t => t.2.2.1 + 1000⟩).2.2.2 2 7 (by decide))⟩

/-- C9: on the local path (`client=None`) the computed `threads` value is
never used: any two worker counts yield the same state and the same result
list, and the execution is exactly the strictly sequential `runSeq` in input
order. -/
theorem run_parallel_swat_local_ignores_workers {S P R D : Type}
    (copy_and_run : S → Option D → Bool → P → Bool → S × R)
    (max_treads : Nat) (params : List P) (dir : Option D) (s : S) (w1 w2 : Nat) :
    run_parallel_swat copy_and_run max_treads params w1 dir none s
        = run_parallel_swat copy_and_run max_treads params w2 dir none s
    ∧ run_parallel_swat copy_and_run max_treads params w1 dir none s
        = runSeq copy_and_run dir s params := by
  constructor
  · rfl
  · show params.foldl _ (s, []) = _
    rw [run_parallel_local_eq]
    rw [List.nil_append]

/-- Kind of a filesystem entry. -/
inductive FsKind
  | file
  | dir
deriving DecidableEq

/-- A filesystem path, as a list of name components. -/
abbrev FsPath := List String

/-- The Python exceptions that the library calls used by `copy_swat` can
raise: `FileNotFoundError` and `NotADirectoryError` from `tempfile.mkdtemp`,
`FileExistsError` and `NotADirectoryError` from `os.makedirs(...,
exist_ok=True)`, `TypeError` from passing `None` where a path is required,
and the two `TypeError`s raised explicitly by `copy_swat` itself
(`"dir must be a folder"`, i.e. the spec's InvalidTarget, and
`"option not recognized"`, i.e. the spec's UnsupportedOption). -/
inductive PyErr
  | fileNotFound
  | fileExists
  | notADirectory
  | badArgument
  | dirMustBeFolder
  | optionNotRecognized
deriving DecidableEq

/-- The filesystem: an association list of entries, earlier entries
shadowing later ones (creating or copying prepends), plus a counter
supplying the fresh names that `tempfile.mkdtemp` generates. -/
structure Fs where
  entries : List (FsPath × FsKind)
  tempCounter : Nat
deriving DecidableEq

/-- First entry whose path equals `p`. -/
def lookupEntries : List (FsPath × FsKind) → FsPath → Option FsKind
  | [], _ => none
  | e :: es, p => if e.1 = p then some e.2 else lookupEntries es p

/-- Kind of the entry at `p`, if any. -/
def Fs.lookup (fs : Fs) (p : FsPath) : Option FsKind := lookupEntries fs.entries p

/-- Embeds `os.path.isdir`. -/
def Fs.isdir (fs : Fs) (p : FsPath) : Bool := decide (fs.lookup p = some FsKind.dir)

/-- Embeds `os.path.isfile`. -/
def Fs.isfile (fs : Fs) (p : FsPath) : Bool := decide (fs.lookup p = some FsKind.file)

/-- The system temporary directory used by `tempfile.mkdtemp(dir=None)`. -/
def sysTempDir : FsPath := ["tmp"]

/-- The fresh directory name `mkdtemp` generates from the counter. -/
def tempName (n : Nat) : String := String.mk (natChars n)

/-- Embeds `tempfile.mkdtemp(dir=dir)`: requires the root to exist
(`FileNotFoundError` otherwise) and be a directory (`NotADirectoryError`
otherwise), then creates a fresh uniquely named subdirectory inside it and
returns its path. -/
def mkdtemp (fs : Fs) (dir : Option FsPath) : Except PyErr (Fs × FsPath) :=
  let root := dir.getD sysTempDir
  match fs.lookup root with
  | none => Except.error PyErr.fileNotFound
  | some FsKind.file => Except.error PyErr.notADirectory
  | some FsKind.dir =>
      let p := root ++ [tempName fs.tempCounter]
      Except.ok (⟨(p, FsKind.dir) :: fs.entries, fs.tempCounter + 1⟩, p)

/-- All nonempty prefixes of a path, shortest first (the chain of
directories `os.makedirs` creates), including the path itself. -/
def pathPrefixes (p : FsPath) : List FsPath :=
  (List.range p.length).map (fun i => p.take (i + 1))

/-- The proper (intermediate) prefixes of a path. -/
def properPrefixes (p : FsPath) : List FsPath :=
  (List.range (p.length - 1)).map (fun i => p.take (i + 1))

/-- The directory entries `os.makedirs` adds: every prefix of `p` that does
not already exist. -/
def makedirsEntries (fs : Fs) (p : FsPath) : List (FsPath × FsKind) :=
  ((pathPrefixes p).filter (fun q => (fs.lookup q).isNone)).map (fun q => (q, FsKind.dir))

/-- Embeds `os.makedirs(p, exist_ok=True)`: raises `NotADirectoryError` when an
intermediate prefix is a regular file, `FileExistsError` when `p` itself is
a regular file (with `exist_ok=True` an existing directory is fine), else
creates all missing directories along `p`. -/
def makedirs (fs : Fs) (p : FsPath) : Except PyErr Fs :=
  if (properPrefixes p).any (fun q => fs.isfile q) then Except.error PyErr.notADirectory
  else if fs.isfile p then Except.error PyErr.fileExists
  else Except.ok ⟨makedirsEntries fs p ++ fs.entries, fs.tempCounter⟩

/-- The eight output-artifact suffixes excluded by `copy_swat`'s copy loop. -/
def excludedSuffixes : List (List Char) :=
  ["_aa.txt".toList, "_aa.csv".toList, "_yr.txt".toList, "_yr.csv".toList,
    "_day.txt".toList, "_day.csv".toList, "_mon.csv".toList, "_mon.txt".toList]

/-- Embeds `file.endswith(...)` against the excluded suffixes. -/
def isExcluded (name : String) : Bool :=
  excludedSuffixes.any (fun suf => List.isSuffixOf suf name.toList)

/-- File entries created by the `shutil.copy2` loop of `copy_swat`: one file
per non-excluded source file name, directly inside `dest`. -/
def copyEntries (srcFiles : List String) (dest : FsPath) : List (FsPath × FsKind) :=
  (srcFiles.filter (fun f => !isExcluded f)).map (fun f => (dest ++ [f], FsKind.file))

/-- The copy loop of `copy_swat`: copy every non-excluded file of the source
workspace into `dest`. -/
def copyFiles (fs : Fs) (srcFiles : List String) (dest : FsPath) : Fs :=
  ⟨copyEntries srcFiles dest ++ fs.entries, fs.tempCounter⟩

/-- Is `e` a regular file directly inside `d` (what `copy_swat`'s overwrite
branch deletes: `os.listdir` entries passing `os.path.isfile`)? -/
def isDirectChildFile (d : FsPath) (e : FsPath × FsKind) : Bool :=
  e.2 == FsKind.file && decide (e.1.length = d.length + 1) && decide (e.1.take d.length = d)

/-- The deletion loop of `copy_swat`'s overwrite branch: remove every
regular file directly inside `d` (subdirectories untouched, non-recursive). -/
def deleteFilesIn (fs : Fs) (d : FsPath) : Fs :=
  ⟨fs.entries.filter (fun e => !isDirectChildFile d e), fs.tempCounter⟩

/-- Embeds `TxtinoutReader.copy_swat`, following the source's branch structure
line by line: (1) `dir is None or (not overwrite and dir is not None)` →
`mkdtemp`, catching only `FileNotFoundError` and retrying after
`os.makedirs(dir, exist_ok=True)` (a `None` dir inside the handler would be
a `TypeError`); (2) `elif overwrite` → if `dir` is a directory, delete its
direct child files and copy in place, otherwise `os.makedirs(dir,
exist_ok=True)` — which raises `FileExistsError` when `dir` is an existing
regular file — and copy; (3) the remaining `elif not os.path.isdir(dir)`
(with its `TypeError("dir must be a folder")` for an existing file) and the
final `else: TypeError("option not recognized")` are kept exactly as in the
source. -/
def copy_swat (fs : Fs) (srcFiles : List String) (dir : Option FsPath) (overwrite : Bool) :
    Except PyErr (Fs × FsPath) :=
  if dir = none ∨ (overwrite = false ∧ dir ≠ none) then
    match mkdtemp fs dir with
    | Except.ok fp => Except.ok (copyFiles fp.1 srcFiles fp.2, fp.2)
    | Except.error PyErr.fileNotFound =>
        match dir with
        | none => Except.error PyErr.badArgument
        | some d =>
            match makedirs fs d with
            | Except.error e => Except.error e
            | Except.ok fs2 =>
                match mkdtemp fs2 (some d) with
                | Except.ok fp => Except.ok (copyFiles fp.1 srcFiles fp.2, fp.2)
                | Except.error e => Except.error e
    | Except.error e => Except.error e
  else if overwrite then
    match dir with
    | none => Except.error PyErr.badArgument
    | some d =>
        if fs.isdir d then
          Except.ok (copyFiles (deleteFilesIn fs d) srcFiles d, d)
        else
          match makedirs fs d with
          | Except.ok fs2 => Except.ok (copyFiles fs2 srcFiles d, d)
          | Except.error e => Except.error e
  else
    match dir with
    | none => Except.error PyErr.badArgument
    | some d =>
        if !fs.isdir d then
          if fs.isfile d then Except.error PyErr.dirMustBeFolder
          else
            match makedirs fs d with
            | Except.ok fs2 => Except.ok (copyFiles fs2 srcFiles d, d)
            | Except.error e => Except.error e
        else Except.error PyErr.optionNotRecognized

theorem mkdtemp_error_cases (fs : Fs) (dir : Option FsPath) (e : PyErr)
    (h : mkdtemp fs dir = Except.error e) :
    e = PyErr.fileNotFound ∨ e = PyErr.notADirectory := by
  simp only [mkdtemp] at h
  cases hlk : fs.lookup (dir.getD sysTempDir) with
  | none =>
      rw [hlk] at h
      exact Or.inl (Except.error.inj h).symm
  | some k =>
      cases k with
      | file =>
          rw [hlk] at h
          exact Or.inr (Except.error.inj h).symm
      | dir =>
          rw [hlk] at h
          exact Except.noConfusion h

theorem makedirs_error_cases (fs : Fs) (p : FsPath) (e : PyErr)
    (h : makedirs fs p = Except.error e) :
    e = PyErr.notADirectory ∨ e = PyErr.fileExists := by
  unfold makedirs at h
  by_cases h1 : (properPrefixes p).any (fun q => fs.isfile q) = true
  · rw [if_pos h1] at h
    exact Or.inl (Except.error.inj h).symm
  · rw [Bool.not_eq_true] at h1
    rw [h1] at h
    simp only [Bool.false_eq_true, if_false] at h
    by_cases h2 : fs.isfile p = true
    · rw [if_pos h2] at h
      exact Or.inr (Except.error.inj h).symm
    · rw [Bool.not_eq_true] at h2
      rw [h2] at h
      simp only [Bool.false_eq_true, if_false] at h
      exact Except.noConfusion h

theorem copy_swat_error_cases (fs : Fs) (files : List String) (dir : Option FsPath)
    (ow : Bool) (e : PyErr) (h : copy_swat fs files dir ow = Except.error e) :
    e = PyErr.fileNotFound ∨ e = PyErr.notADirectory ∨ e = PyErr.fileExists
      ∨ e = PyErr.badArgument := by
  unfold copy_swat at h
  by_cases h1 : dir = none ∨ (ow = false ∧ dir ≠ none)
  · rw [if_pos h1] at h
    split at h
    · exact Except.noConfusion h
    · split at h
      · have hb : PyErr.badArgument = e := Except.error.inj h
        subst hb
        simp
      · split at h
        · rename_i e2 hmd
          have he2 : e2 = e := Except.error.inj h
          subst he2
          rcases makedirs_error_cases _ _ _ hmd with h2 | h2 <;> subst h2 <;> simp
        · split at h
          · exact Except.noConfusion h
          · rename_i e3 hmk2
            have he3 : e3 = e := Except.error.inj h
            subst he3
            rcases mkdtemp_error_cases _ _ _ hmk2 with h3 | h3 <;> subst h3 <;> simp
    · rename_i e1 hdisc hmk
      have he1 : e1 = e := Except.error.inj h
      subst he1
      rcases mkdtemp_error_cases _ _ _ hmk with h2 | h2 <;> subst h2 <;> simp
  · rw [if_neg h1] at h
    by_cases h2 : ow = true
    · rw [if_pos h2] at h
      split at h
      · have hb : PyErr.badArgument = e := Except.error.inj h
        subst hb
        simp
      · split at h
        · exact Except.noConfusion h
        · split at h
          · exact Except.noConfusion h
          · rename_i e2 hmd
            have he2 : e2 = e := Except.error.inj h
            subst he2
            rcases makedirs_error_cases _ _ _ hmd with h3 | h3 <;> subst h3 <;> simp
    · exfalso
      rw [Bool.not_eq_true] at h2
      subst h2
      cases hd : dir with
      | none => exact h1 (Or.inl hd)
      | some d => exact h1 (Or.inr ⟨rfl, by rw [hd]; exact fun hc => Option.noConfusion hc⟩)

/-- C2 counterexample: cloning with `overwrite=true` onto a target that is
an existing regular file does NOT fail with the "dir must be a folder"
`TypeError` (the spec's `InvalidTarget`): it fails with `FileExistsError`,
raised by `os.makedirs(dir, exist_ok=True)` in the overwrite branch.  The
`InvalidTarget` check sits in a branch that can never be reached. -/
theorem copy_swat_file_target_counterexample :
    copy_swat ⟨[(["target"], FsKind.file), (["ws", "a.txt"], FsKind.file)], 0⟩
        ["a.txt"] (some ["target"]) true
      = Except.error PyErr.fileExists
    ∧ Except.error PyErr.fileExists
      ≠ (Except.error PyErr.dirMustBeFolder : Except PyErr (Fs × FsPath)) :=
  ⟨rfl, fun h => PyErr.noConfusion (Except.error.inj h)⟩

/-- C2 (amended): with `overwrite=true` and a target path that is an
existing regular file (and no ancestor of it a file), `copy_swat` fails —
but with `FileExistsError` from the directory-creation call, not with the
`InvalidTarget` error; moreover the `InvalidTarget`
(`TypeError("dir must be a folder")`) and `UnsupportedOption`
(`TypeError("option not recognized")`) branches are dead code: no argument
combination whatsoever produces either error. -/
theorem copy_swat_overwrite_file_target (fs : Fs) (files : List String) (d : FsPath)
    (hfile : fs.isfile d = true)
    (hanc : ∀ q ∈ properPrefixes d, fs.isfile q = false) :
    copy_swat fs files (some d) true = Except.error PyErr.fileExists
    ∧ (∀ (fs2 : Fs) (files2 : List String) (dir : Option FsPath) (ow : Bool),
        copy_swat fs2 files2 dir ow ≠ Except.error PyErr.dirMustBeFolder
        ∧ copy_swat fs2 files2 dir ow ≠ Except.error PyErr.optionNotRecognized) := by
  constructor
  · have hlk : fs.lookup d = some FsKind.file := of_decide_eq_true hfile
    have hdir : fs.isdir d = false := by
      unfold Fs.isdir
      rw [hlk]
      rfl
    have hany : (properPrefixes d).any (fun q => fs.isfile q) = false :=
      List.any_eq_false.mpr (fun q hq => by rw [hanc q hq]; exact Bool.false_ne_true)
    have hmd : makedirs fs d = Except.error PyErr.fileExists := by
      unfold makedirs
      rw [hany]
      simp only [Bool.false_eq_true, if_false]
      rw [hfile]
      simp only [if_true]
    unfold copy_swat
    rw [if_neg (by simp)]
    simp only [if_true]
    rw [hdir]
    simp only [Bool.false_eq_true, if_false, hmd]
  · intro fs2 files2 dir ow
    constructor
    · intro hc
      rcases copy_swat_error_cases fs2 files2 dir ow _ hc with h | h | h | h <;>
        exact PyErr.noConfusion h
    · intro hc
      rcases copy_swat_error_cases fs2 files2 dir ow _ hc with h | h | h | h <;>
        exact PyErr.noConfusion h

/-- Witness for `copy_swat_overwrite_file_target` on a concrete filesystem. -/
theorem copy_swat_overwrite_file_target_witness :
    copy_swat ⟨[(["target"], FsKind.file), (["ws", "a.txt"], FsKind.file)], 0⟩
        ["a.txt"] (some ["target"]) true = Except.error PyErr.fileExists
    ∧ (∀ (fs2 : Fs) (files2 : List String) (dir : Option FsPath) (ow : Bool),
        copy_swat fs2 files2 dir ow ≠ Except.error PyErr.dirMustBeFolder
        ∧ copy_swat fs2 files2 dir ow ≠ Except.error PyErr.optionNotRecognized) :=
  copy_swat_overwrite_file_target
    ⟨[(["target"], FsKind.file), (["ws", "a.txt"], FsKind.file)], 0⟩
    ["a.txt"] ["target"] (by decide) (by decide)

theorem lookupEntries_append_some (xs ys : List (FsPath × FsKind)) (p : FsPath) (k : FsKind)
    (h : lookupEntries xs p = some k) : lookupEntries (xs ++ ys) p = some k := by
  induction xs with
  | nil => exact Option.noConfusion h
  | cons e es ih =>
      simp only [lookupEntries] at h
      simp only [List.cons_append, lookupEntries]
      by_cases he : e.1 = p
      · rw [if_pos he]
        rw [if_pos he] at h
        exact h
      · rw [if_neg he]
        rw [if_neg he] at h
        exact ih h

theorem lookupEntries_append_none (xs ys : List (FsPath × FsKind)) (p : FsPath)
    (h : lookupEntries xs p = none) : lookupEntries (xs ++ ys) p = lookupEntries ys p := by
  induction xs with
  | nil => rfl
  | cons e es ih =>
      simp only [lookupEntries] at h
      simp only [List.cons_append, lookupEntries]
      by_cases he : e.1 = p
      · rw [if_pos he] at h
        exact Option.noConfusion h
      · rw [if_neg he]
        rw [if_neg he] at h
        exact ih h

theorem lookupEntries_map_paths {α : Type} (g : α → FsPath) (k : FsKind) (xs : List α)
    (p : FsPath) :
    lookupEntries (xs.map (fun a => (g a, k))) p = if p ∈ xs.map g then some k else none := by
  induction xs with
  | nil => simp [lookupEntries]
  | cons a as ih =>
      simp only [List.map_cons, lookupEntries, List.mem_cons]
      by_cases h : g a = p
      · rw [if_pos h, if_pos (Or.inl h.symm)]
      · rw [if_neg h, ih]
        by_cases hm : p ∈ as.map g
        · rw [if_pos hm, if_pos (Or.inr hm)]
        · rw [if_neg hm, if_neg (fun hc => hc.elim (fun hh => h hh.symm) hm)]

theorem lookupEntries_none_of_no_prefix (es : List (FsPath × FsKind)) (d p : FsPath)
    (hd : d <+: p) (h : ∀ e ∈ es, ¬ d <+: e.1) : lookupEntries es p = none := by
  induction es with
  | nil => rfl
  | cons e es ih =>
      simp only [lookupEntries]
      have hne : e.1 ≠ p := fun hep => h e (List.mem_cons_self e es) (by rw [hep]; exact hd)
      rw [if_neg hne]
      exact ih (fun e2 hm => h e2 (List.mem_cons_of_mem e hm))

theorem self_mem_pathPrefixes (d : FsPath) (h : d ≠ []) : d ∈ pathPrefixes d := by
  unfold pathPrefixes
  refine List.mem_map.mpr ⟨d.length - 1, List.mem_range.mpr ?_, ?_⟩
  · have := List.length_pos.mpr h
    omega
  · have hlen : d.length - 1 + 1 = d.length := by
      have := List.length_pos.mpr h
      omega
    rw [hlen, List.take_length]

theorem length_le_of_mem_pathPrefixes (d q : FsPath) (h : q ∈ pathPrefixes d) :
    q.length ≤ d.length := by
  unfold pathPrefixes at h
  obtain ⟨i, _, rfl⟩ := List.mem_map.mp h
  rw [List.length_take]
  omega

theorem lookupEntries_dirs (paths : List FsPath) (p : FsPath) :
    lookupEntries (paths.map (fun q => (q, FsKind.dir))) p
      = if p ∈ paths then some FsKind.dir else none := by
  induction paths with
  | nil => simp [lookupEntries]
  | cons a as ih =>
      simp only [List.map_cons, lookupEntries, List.mem_cons]
      by_cases h : a = p
      · rw [if_pos h, if_pos (Or.inl h.symm)]
      · rw [if_neg h, ih]
        by_cases hm : p ∈ as
        · rw [if_pos hm, if_pos (Or.inr hm)]
        · rw [if_neg hm, if_neg (fun hc => hc.elim (fun hh => h hh.symm) hm)]

theorem lookupEntries_copy (dest : FsPath) (names : List String) (p : FsPath) :
    lookupEntries (names.map (fun f => (dest ++ [f], FsKind.file))) p
      = if p ∈ names.map (fun f => dest ++ [f]) then some FsKind.file else none := by
  induction names with
  | nil => simp [lookupEntries]
  | cons a as ih =>
      simp only [List.map_cons, lookupEntries, List.mem_cons]
      by_cases h : dest ++ [a] = p
      · rw [if_pos h, if_pos (Or.inl h.symm)]
      · rw [if_neg h, ih]
        by_cases hm : p ∈ as.map (fun f => dest ++ [f])
        · rw [if_pos hm, if_pos (Or.inr hm)]
        · rw [if_neg hm, if_neg (fun hc => hc.elim (fun hh => h hh.symm) hm)]

theorem mem_properPrefixes_of_ne (d q : FsPath) (h : q ∈ pathPrefixes d) (hne : q ≠ d) :
    q ∈ properPrefixes d := by
  unfold pathPrefixes at h
  obtain ⟨i, hi, rfl⟩ := List.mem_map.mp h
  rw [List.mem_range] at hi
  unfold properPrefixes
  refine List.mem_map.mpr ⟨i, List.mem_range.mpr ?_, rfl⟩
  by_contra hge
  have hieq : i + 1 = d.length := by omega
  exact hne (by rw [hieq, List.take_length])

/-- C10: cloning with `overwrite=false` into a target directory that does
not yet exist succeeds: `mkdtemp` first fails with `FileNotFoundError`, the
handler creates the missing target (with all intermediate directories) via
`os.makedirs(..., exist_ok=True)`, and the retried `mkdtemp` creates a fresh
uniquely named subdirectory whose path is returned, into which every
non-excluded workspace file is copied. -/
theorem copy_swat_creates_missing_dir (fs : Fs) (files : List String) (d : FsPath)
    (hne : d ≠ [])
    (habs : ∀ e ∈ fs.entries, List.isPrefixOf d e.1 = false)
    (hanc : ∀ q ∈ properPrefixes d, fs.isfile q = false) :
    ∃ fsOut : Fs,
      copy_swat fs files (some d) false
          = Except.ok (fsOut, d ++ [tempName fs.tempCounter])
      ∧ fs.lookup (d ++ [tempName fs.tempCounter]) = none
      ∧ fsOut.lookup (d ++ [tempName fs.tempCounter]) = some FsKind.dir
      ∧ (∀ q ∈ pathPrefixes d, fsOut.lookup q = some FsKind.dir)
      ∧ (∀ f ∈ files, isExcluded f = false →
          fsOut.lookup ((d ++ [tempName fs.tempCounter]) ++ [f]) = some FsKind.file) := by
  have habs' : ∀ e ∈ fs.entries, ¬ d <+: e.1 := by
    intro e he hp
    have hb := List.isPrefixOf_iff_prefix.mpr hp
    rw [habs e he] at hb
    exact Bool.noConfusion hb
  have hlkd : fs.lookup d = none :=
    lookupEntries_none_of_no_prefix fs.entries d d (List.prefix_refl d) habs'
  have hlkret : fs.lookup (d ++ [tempName fs.tempCounter]) = none :=
    lookupEntries_none_of_no_prefix fs.entries d _ ⟨[tempName fs.tempCounter], rfl⟩ habs'
  have hmk1 : mkdtemp fs (some d) = Except.error PyErr.fileNotFound := by
    simp only [mkdtemp, Option.getD_some]
    rw [hlkd]
  have hfd : fs.isfile d = false := by
    unfold Fs.isfile
    rw [hlkd]
    rfl
  have hany : (properPrefixes d).any (fun q => fs.isfile q) = false :=
    List.any_eq_false.mpr (fun q hq => by rw [hanc q hq]; exact Bool.false_ne_true)
  have hmd : makedirs fs d
      = Except.ok ⟨makedirsEntries fs d ++ fs.entries, fs.tempCounter⟩ := by
    unfold makedirs
    rw [hany]
    simp only [Bool.false_eq_true, if_false]
    rw [hfd]
    simp only [Bool.false_eq_true, if_false]
  have hdfilter : d ∈ (pathPrefixes d).filter (fun q => (fs.lookup q).isNone) :=
    List.mem_filter.mpr ⟨self_mem_pathPrefixes d hne, by rw [hlkd]; rfl⟩
  have hlk2 : Fs.lookup ⟨makedirsEntries fs d ++ fs.entries, fs.tempCounter⟩ d
      = some FsKind.dir := by
    show lookupEntries (makedirsEntries fs d ++ fs.entries) d = some FsKind.dir
    apply lookupEntries_append_some
    unfold makedirsEntries
    rw [lookupEntries_dirs]
    rw [if_pos hdfilter]
  have hmk2 : mkdtemp ⟨makedirsEntries fs d ++ fs.entries, fs.tempCounter⟩ (some d)
      = Except.ok (⟨(d ++ [tempName fs.tempCounter], FsKind.dir)
            :: (makedirsEntries fs d ++ fs.entries), fs.tempCounter + 1⟩,
          d ++ [tempName fs.tempCounter]) := by
    simp only [mkdtemp, Option.getD_some]
    rw [hlk2]
  refine ⟨⟨copyEntries files (d ++ [tempName fs.tempCounter])
      ++ ((d ++ [tempName fs.tempCounter], FsKind.dir)
        :: (makedirsEntries fs d ++ fs.entries)), fs.tempCounter + 1⟩,
    ?_, hlkret, ?_, ?_, ?_⟩
  · unfold copy_swat
    rw [if_pos (Or.inr ⟨rfl, fun hc => Option.noConfusion hc⟩)]
    split
    · rename_i fp heq
      rw [hmk1] at heq
      exact Except.noConfusion heq
    · split
      · rename_i hmd2
        exact Option.noConfusion hmd2
      · rename_i d2 hmd2
        have hd2 : d = d2 := Option.some.inj hmd2
        subst hd2
        split
        · rename_i e2 hmd3
          rw [hmd] at hmd3
          exact Except.noConfusion hmd3
        · rename_i fs2 hmd3
          rw [hmd] at hmd3
          have hfs2 : (⟨makedirsEntries fs d ++ fs.entries, fs.tempCounter⟩ : Fs) = fs2 :=
            Except.ok.inj hmd3
          subst hfs2
          split
          · rename_i fp heq3
            rw [hmk2] at heq3
            have hfp := Except.ok.inj heq3
            subst hfp
            rfl
          · rename_i e3 heq3
            rw [hmk2] at heq3
            exact Except.noConfusion heq3
    · rename_i e1 hdisc hmk
      rw [hmk1] at hmk
      exact absurd (Except.error.inj hmk).symm hdisc
  · show lookupEntries _ _ = some FsKind.dir
    have hcopy : lookupEntries
        (copyEntries files (d ++ [tempName fs.tempCounter]))
        (d ++ [tempName fs.tempCounter]) = none := by
      unfold copyEntries
      rw [lookupEntries_copy]
      rw [if_neg ?_]
      intro hm
      obtain ⟨f, _, hfe⟩ := List.mem_map.mp hm
      have := congrArg List.length hfe
      simp only [List.length_append, List.length_singleton] at this
      omega
    rw [lookupEntries_append_none _ _ _ hcopy]
    simp only [lookupEntries]
    simp
  · intro q hq
    have hqlen : q.length ≤ d.length := length_le_of_mem_pathPrefixes d q hq
    show lookupEntries _ q = some FsKind.dir
    have hcopy : lookupEntries
        (copyEntries files (d ++ [tempName fs.tempCounter])) q = none := by
      unfold copyEntries
      rw [lookupEntries_copy]
      rw [if_neg ?_]
      intro hm
      obtain ⟨f, _, hfe⟩ := List.mem_map.mp hm
      have := congrArg List.length hfe
      simp only [List.length_append, List.length_singleton] at this
      omega
    rw [lookupEntries_append_none _ _ _ hcopy]
    simp only [lookupEntries]
    rw [if_neg ?_]
    swap
    · intro hretq
      have := congrArg List.length hretq
      simp only [List.length_append, List.length_singleton] at this
      omega
    cases hlq : fs.lookup q with
    | none =>
        have hmem : q ∈ (pathPrefixes d).filter (fun r => (fs.lookup r).isNone) :=
          List.mem_filter.mpr ⟨hq, by rw [hlq]; rfl⟩
        apply lookupEntries_append_some
        unfold makedirsEntries
        rw [lookupEntries_dirs]
        rw [if_pos hmem]
    | some k =>
        have hnotin : q ∉ (pathPrefixes d).filter (fun r => (fs.lookup r).isNone) := by
          intro hmem
          have hn := (List.mem_filter.mp hmem).2
          rw [hlq] at hn
          exact Bool.noConfusion hn
        have hnone : lookupEntries (makedirsEntries fs d) q = none := by
          unfold makedirsEntries
          rw [lookupEntries_dirs]
          rw [if_neg hnotin]
        rw [lookupEntries_append_none _ _ _ hnone]
        cases k with
        | dir => exact hlq
        | file =>
            exfalso
            have hqd : q ≠ d := by
              intro hqd
              rw [hqd, hlkd] at hlq
              exact Option.noConfusion hlq
            have hqp : q ∈ properPrefixes d := mem_properPrefixes_of_ne d q hq hqd
            have hf := hanc q hqp
            unfold Fs.isfile at hf
            rw [hlq] at hf
            simp at hf
  · intro f hf hex
    show lookupEntries _ _ = some FsKind.file
    apply lookupEntries_append_some
    unfold copyEntries
    rw [lookupEntries_copy]
    rw [if_pos (List.mem_map.mpr
      ⟨f, List.mem_filter.mpr ⟨hf, by rw [hex]; rfl⟩, rfl⟩)]

/-- Witness for `copy_swat_creates_missing_dir` on a concrete filesystem. -/
theorem copy_swat_creates_missing_dir_witness :
    ∃ fsOut : Fs,
      copy_swat ⟨[(["ws", "a.txt"], FsKind.file), (["ws"], FsKind.dir)], 0⟩
          ["a.txt", "out_day.csv"] (some ["runs", "batch1"]) false
          = Except.ok (fsOut, ["runs", "batch1"] ++ [tempName 0])
      ∧ Fs.lookup ⟨[(["ws", "a.txt"], FsKind.file), (["ws"], FsKind.dir)], 0⟩
          (["runs", "batch1"] ++ [tempName 0]) = none
      ∧ fsOut.lookup (["runs", "batch1"] ++ [tempName 0]) = some FsKind.dir
      ∧ (∀ q ∈ pathPrefixes ["runs", "batch1"], fsOut.lookup q = some FsKind.dir)
      ∧ (∀ f ∈ ["a.txt", "out_day.csv"], isExcluded f = false →
          fsOut.lookup ((["runs", "batch1"] ++ [tempName 0]) ++ [f]) = some FsKind.file) :=
  copy_swat_creates_missing_dir
    ⟨[(["ws", "a.txt"], FsKind.file), (["ws"], FsKind.dir)], 0⟩
    ["a.txt", "out_day.csv"] ["runs", "batch1"]
    (by decide)
    (by intro e he; fin_cases he <;> decide)
    (by intro q hq; fin_cases hq <;> decide)
